import Mathlib

/-!
# Verification of the aiSearchEngine agent core

Shallow embedding of the repository's agent core:

* `server/core/frameworks/mcp/model.js` — `Model` (state store), `Controller`
  (tool executor), `Planner` (action planner / answer synthesis);
* `server/core/frameworks/react/index.js` — `ReActFramework` (orchestrator);
* `server/core/tools/web-search.js` — `WebSearchTool` (retrieval tool);
* `server/services/llm/claude-client.js` — `ClaudeClient.complete` defaults;
* `server/core/tools/index.js` — `ToolBox` registry.

JavaScript conventions modelled explicitly:

* `a || b` on strings/numbers uses JS falsiness (`""`, `0`, `null`/`undefined`
  are falsy); optional / possibly-`undefined` values are `Option`s.
* Exceptions are `Except String`; a `try`/`catch` is a `match` on the `Except`.
* Asynchronous calls to external services (the completion client, the
  per-source fetches) are oracles passed in as function arguments, which may
  return `Except.error` to model a rejected promise.
-/

namespace AiSearch

/-- JS truthiness for an optional string: `undefined`/`null` and `""` are falsy. -/
def jsTruthyStr : Option String → Bool
  | none => false
  | some s => s ≠ ""

/-- JS `a || b` where `a` is an optional string (falsy: absent or `""`). -/
def jsOrStr (a : Option String) (b : String) : String :=
  match a with
  | none => b
  | some s => if s = "" then b else s

/-- JS `a || b` where `a` is an optional number (falsy: absent or `0`).
Used for `config.maxIterations || 5` and the Claude client's defaults. -/
def jsOrNat (a : Option Nat) (b : Nat) : Nat :=
  match a with
  | none => b
  | some n => if n = 0 then b else n

/-- JS `a || b` for an optional rational (falsy: absent or `0`), modelling a
JS number parameter such as `temperature`. -/
def jsOrRat (a : Option ℚ) (b : ℚ) : ℚ :=
  match a with
  | none => b
  | some q => if q = 0 then b else q

/-- JS `a || b` where `a` is an optional boolean (falsy: absent or `false`). -/
def jsOrBool (a : Option Bool) (b : Bool) : Bool :=
  match a with
  | none => b
  | some v => v || b

/-- A `{role, content}` conversation entry (`state.conversation` items). -/
structure Message where
  role : String
  content : String
deriving DecidableEq, Repr

/-- The evidence shape stored in `state.sources` and returned to callers:
`{title, url, source, snippet}` as produced by `WebSearchTool.execute`'s
final mapping.  The `url` is the identifier used for deduplication. -/
structure Source where
  title : String
  url : String
  source : String
  snippet : String
deriving DecidableEq, Repr

/-- Caller-supplied context (`options.context` merged with sources/files);
opaque to the core, modelled as a string key/value map. -/
def Context := List (String × String)
deriving DecidableEq, Repr

/-- The `Model`'s session state (`model.js`, constructor / `initializeState`). -/
structure ModelState where
  query : String
  conversation : List Message
  context : Context
  sources : List Source
  iterations : Nat
  finalAnswer : Option String
deriving DecidableEq, Repr

/-- `Model.initializeState(query, context)` (`model.js` lines 22–34). -/
def initializeState (query : String) (context : Context) : ModelState :=
  { query := query
    conversation := [{ role := "user", content := query }]
    context := context
    sources := []
    iterations := 0
    finalAnswer := none }

/-- An `updates` object passed to `Model.updateState`.  The orchestrator only
ever passes `{iterations: n}` or `{sources: [...]}`; an absent key is `none`. -/
structure StateUpdate where
  iterations : Option Nat := none
  sources : Option (List Source) := none
deriving DecidableEq, Repr

/-- The duplicate-removal filter used in `model.js` lines 51–54 and
`react/index.js` lines 117–120:
`list.filter((s, i, self) => i === self.findIndex(t => t.url === s.url))`,
i.e. keep an element exactly when its index equals the index of the first
element with the same `url`. -/
def dedupByUrl (l : List Source) : List Source :=
  (l.enum.filter (fun p => l.findIdx (fun s => s.url == p.2.url) == p.1)).map Prod.snd

/-- `Model.updateState(updates)` (`model.js` lines 40–59).

Faithful to the source, including its aliasing slip: the spread
`this.state = {...this.state, ...updates}` *first replaces* `state.sources`
with `updates.sources` when that key is present, and only then line 48
computes `[...this.state.sources, ...updates.sources]` — which is therefore
`updates.sources ++ updates.sources`, not `old ++ new`. -/
def updateState (st : ModelState) (u : StateUpdate) : ModelState :=
  -- the spread `{...this.state, ...updates}`
  let st1 : ModelState :=
    { st with
      iterations := u.iterations.getD st.iterations
      sources := u.sources.getD st.sources }
  -- `if (updates.sources && Array.isArray(updates.sources))` — any array
  -- (even an empty one) is truthy in JS, absence is falsy
  match u.sources with
  | none => st1
  | some newSources =>
      { st1 with sources := dedupByUrl (st1.sources ++ newSources) }

/-- `Model.addObservation(observation, actionName)` (`model.js` lines 66–74). -/
def addObservation (st : ModelState) (observation : String) (actionName : String) :
    ModelState :=
  { st with
    conversation := st.conversation ++
      [{ role := "system",
         content := "Observation from " ++ actionName ++ ": " ++ observation }] }

/-- `Model.addReasoning(thought)` (`model.js` lines 80–88). -/
def addReasoning (st : ModelState) (thought : String) : ModelState :=
  { st with
    conversation := st.conversation ++
      [{ role := "system", content := "Thinking: " ++ thought }] }

/-- `Model.setFinalAnswer(answer)` (`model.js` lines 94–103). -/
def setFinalAnswer (st : ModelState) (answer : String) : ModelState :=
  { st with
    finalAnswer := some answer
    conversation := st.conversation ++ [{ role := "assistant", content := answer }] }

/-! ## Retrieval tool (`server/core/tools/web-search.js`) -/

/-- A per-source search result (`{title, url, snippet, source, relevance}`).
Relevance scores are modelled as rationals (the source uses plain JS numbers
such as `0.95`; none of the verified behaviour depends on float rounding). -/
structure SearchResult where
  title : String
  url : String
  snippet : String
  source : String
  relevance : ℚ
deriving DecidableEq, Repr

/-- Rational literal `n / d` built directly in lowest terms, used for the
concrete relevance scores (JS numbers such as `0.9 = 9/10`); constructing
the numerator/denominator form keeps every comparison computable. -/
def ratLit (n : Int) (d : Nat) (hd : d ≠ 0 := by decide)
    (hc : n.natAbs.Coprime d := by decide) : ℚ :=
  ⟨n, d, hd, hc⟩

/-- The comparator order used by `rankResults`' call
`results.sort((a, b) => b.relevance - a.relevance)`: `a` may stay before `b`
iff the comparator is `≤ 0`, i.e. `b.relevance ≤ a.relevance`. -/
def rankLE (a b : SearchResult) : Prop := b.relevance ≤ a.relevance

instance : DecidableRel rankLE := fun a b =>
  inferInstanceAs (Decidable (b.relevance ≤ a.relevance))

instance : IsTotal SearchResult rankLE :=
  ⟨fun a b => le_total b.relevance a.relevance⟩

instance : IsTrans SearchResult rankLE :=
  ⟨fun _ _ _ hab hbc => le_trans hbc hab⟩

/-- `WebSearchTool.rankResults(results, query)` (`web-search.js` lines
188–192): `results.sort((a, b) => b.relevance - a.relevance)`.
`Array.prototype.sort` is required to be stable (ES2019), and a stable sort
for a total preorder is unique, so it is embedded as the stable insertion
sort by descending relevance. -/
def rankResults (results : List SearchResult) : List SearchResult :=
  results.insertionSort rankLE

/-- `.filter(Boolean)` on a list of (non-null) result objects: every object
is truthy in JS.  Kept so the pipeline shape matches the source. -/
def jsTruthyObj (_ : SearchResult) : Bool := true

/-- The evidence mapping at the end of `WebSearchTool.execute`
(`web-search.js` lines 61–66). -/
def toEvidence (r : SearchResult) : Source :=
  { title := r.title, url := r.url, source := r.source, snippet := r.snippet }

/-- `WebSearchTool.summarizeResults(results, query)` (`web-search.js` lines
200–224).  The Claude call is an oracle taking the ranked top results and the
query (the prompt is built from exactly these); its own `try`/`catch` turns a
failure into the fixed fallback string, so the method itself never throws. -/
def summarizeResults (llm : List SearchResult → String → Except String String)
    (results : List SearchResult) (query : String) : String :=
  match llm results query with
  | .ok text => text
  | .error _ => "Unable to generate summary due to an error."

/-- The `params` object passed to `WebSearchTool.execute`; both keys may be
absent (`undefined`). -/
structure SearchParams where
  query : Option String := none
  sources : Option (List String) := none

/-- The agent context passed to a tool by `Controller.executeAction`:
`{query: state.query, context: state.context}`. -/
structure ExecCtx where
  query : String
  context : Context

/-- A tool invocation result: `{observation, sources?, error?}`.  An absent
key is `none` (the orchestrator tests `if (actionResult.sources)`, and the
executor's error results carry no `sources` key). -/
structure ToolResult where
  observation : String
  sources : Option (List Source) := none
  error : Option String := none
deriving DecidableEq, Repr

/-- The numbered top-results listing inside the observation string:
`topResults.map((r, i) => ...).join('\n')`. -/
def topResultsListing (topResults : List SearchResult) : String :=
  String.intercalate "\n"
    (topResults.enum.map (fun p =>
      toString (p.1 + 1) ++ ". " ++ p.2.title ++ " (" ++ p.2.source ++ ")"))

/-- `WebSearchTool.execute(params, context)` (`web-search.js` lines 21–76).

* `fetch` is the per-source request (`this.searchSource(source, query)`); a
  rejected promise is `Except.error`.  `Promise.allSettled` never rejects, so
  each outcome is inspected independently and a failure contributes `[]`
  (lines 33–43).
* `llmSummary` is the Claude oracle used by `summarizeResults`.
* Nothing in this body can throw once the per-source failures are absorbed,
  so the top-level `catch` (lines 68–75) is unreachable and the function is
  total. -/
def webSearchExecute (fetch : String → Except String (List SearchResult))
    (llmSummary : List SearchResult → String → Except String String)
    (params : SearchParams) (context : ExecCtx) : ToolResult :=
  let query := jsOrStr params.query context.query
  let sources := params.sources.getD ["zoomCommunity", "zoomSupport", "google"]
  let searchResults := sources.map fetch
  let allResults :=
    ((searchResults.map (fun r =>
        match r with
        | .ok value => value
        | .error _ => [])).flatten).filter jsTruthyObj
  let sortedResults := rankResults allResults
  let topResults := sortedResults.take 5
  let summary :=
    if topResults.length > 0 then summarizeResults llmSummary topResults query
    else ""
  { observation :=
      "Found " ++ toString allResults.length ++ " results across " ++
      toString sources.length ++ " sources. Top results:\n" ++
      topResultsListing topResults ++ "\n\nSummary: " ++ summary
    sources := some (topResults.map toEvidence)
    error := none }

/-! ## Planner (`server/core/frameworks/mcp/planner.js` part of `model.js`)

The labelled-segment text protocol of `parseActionResponse` is embedded over
`List Char`.  Each JS regex of the source has the form
`Label:(.*?)(?=Stop₁|Stop₂|$)` with the `/s` flag: the match anchors at the
first occurrence of the label and the lazy group captures up to the first
following position where a stop label starts, or to the end of the text. -/

/-- The ASCII part of the JS `\s` class and of `String.prototype.trim`'s
whitespace (the inputs at hand contain no exotic unicode spaces). -/
def isJsSpace (c : Char) : Bool :=
  c == ' ' || c == '\t' || c == '\n' || c == '\r'

/-- JS `String.prototype.trim`. -/
def trimChars (s : List Char) : List Char :=
  ((s.dropWhile isJsSpace).reverse.dropWhile isJsSpace).reverse

/-- The suffix following the first occurrence of `pat`, scanning left to
right (how a regex engine anchors `Label:`); `none` when `pat` never occurs
(the JS `match` returns `null`). -/
def findLabel (pat : List Char) : List Char → Option (List Char)
  | [] => if pat.isEmpty then some [] else none
  | s@(_ :: rest) =>
      if pat.isPrefixOf s then some (s.drop pat.length)
      else findLabel pat rest

/-- The lazy capture `(.*?)(?=stop₁|stop₂|$)`: characters up to the first
position where one of the stop labels begins, or the whole remainder. -/
def takeUntilStops (stops : List (List Char)) : List Char → List Char
  | [] => []
  | s@(c :: rest) =>
      if stops.any (fun p => p.isPrefixOf s) then []
      else c :: takeUntilStops stops rest

/-- Case-insensitive prefix test (for the `/i` regex flag). -/
def ciPrefixOf (pat s : List Char) : Bool :=
  (pat.map Char.toLower).isPrefixOf (s.map Char.toLower)

/-- After a case-insensitive `Final Answer:`, the `\s*(true|false)` part:
skip whitespace, then read `true` or `false` case-insensitively. -/
def boolTokenAfterWs (s : List Char) : Option Bool :=
  let t := s.dropWhile isJsSpace
  if ciPrefixOf "true".data t then some true
  else if ciPrefixOf "false".data t then some false
  else none

/-- The match of `/Final Answer:\s*(true|false)/i`: scan positions left to
right; at a position where the label matches case-insensitively but no
boolean token follows, the engine keeps scanning from the next position. -/
def findFinalAnswerFlag : List Char → Option Bool
  | [] => none
  | s@(_ :: rest) =>
      if ciPrefixOf "Final Answer:".data s then
        match boolTokenAfterWs (s.drop 13) with
        | some b => some b
        | none => findFinalAnswerFlag rest
      else findFinalAnswerFlag rest

/-- Left-to-right fence-removal scan; `fuel` only bounds the recursion (each
step consumes at least one character, so `fuel = length` never runs out). -/
def removeFencesAux : Nat → List Char → List Char
  | 0, s => s
  | fuel + 1, s =>
      match s with
      | [] => []
      | c :: rest =>
          if "```json".data.isPrefixOf s then removeFencesAux fuel (s.drop 7)
          else if "```".data.isPrefixOf s then removeFencesAux fuel (s.drop 3)
          else c :: removeFencesAux fuel rest

/-- `paramsText.replace(/```json|```/g, "")`: left-to-right scan removing
each occurrence of a fence token, trying the longer alternative first. -/
def removeFences (s : List Char) : List Char :=
  removeFencesAux s.length s

/-- JS `String.prototype.split` with a single-character separator. -/
def splitOnChar (sep : Char) (s : List Char) : List (List Char) :=
  match s with
  | [] => [[]]
  | c :: rest =>
      if c == sep then [] :: splitOnChar sep rest
      else
        match splitOnChar sep rest with
        | [] => [[c]]
        | h :: t => (c :: h) :: t

/-- JS object property assignment `obj[key] = value`: overwrite an existing
key in place, else append (property order = first-insertion order). -/
def setKey : List (String × String) → String → String → List (String × String)
  | [], k, v => [(k, v)]
  | (k', v') :: rest, k, v =>
      if k' = k then (k, v) :: rest else (k', v') :: setKey rest k v

def skipWs (s : List Char) : List Char := s.dropWhile isJsSpace

/-- Body of a JSON string literal after the opening quote; the planner
protocol only ever produces plain strings, so escape sequences are out of
this model's subset and yield a parse error (which triggers the same
line-based fallback an invalid JSON text would). -/
def parseJsonStringBody : List Char → Except String (List Char × List Char)
  | [] => .error "Unterminated string in JSON"
  | c :: rest =>
      if c == '"' then .ok ([], rest)
      else if c == '\\' then .error "escape sequences outside modelled subset"
      else
        match parseJsonStringBody rest with
        | .ok (chars, rem) => .ok (c :: chars, rem)
        | .error e => .error e

/-- A JSON string literal: opening quote, body, closing quote. -/
def parseJsonStringLit : List Char → Except String (List Char × List Char)
  | [] => .error "Unexpected end of JSON input"
  | c :: rest =>
      if c == '"' then parseJsonStringBody rest
      else .error "Unexpected token in JSON"

/-- `"key": "value"` pairs separated by commas, accumulating with JS
object-assignment semantics.  `fuel` only bounds the recursion; it is set to
the input length, which the pair list can never exceed. -/
def parseJsonPairs (fuel : Nat) (s : List Char) (acc : List (String × String)) :
    Except String (List (String × String) × List Char) :=
  match fuel with
  | 0 => .error "JSON parse fuel exhausted"
  | fuel + 1 =>
    match parseJsonStringLit (skipWs s) with
    | .error e => .error e
    | .ok (key, rest1) =>
      match skipWs rest1 with
      | ':' :: rest2 =>
        match parseJsonStringLit (skipWs rest2) with
        | .error e => .error e
        | .ok (value, rest3) =>
          let acc' := setKey acc (String.mk key) (String.mk value)
          match skipWs rest3 with
          | ',' :: rest4 => parseJsonPairs fuel rest4 acc'
          | rest4 => .ok (acc', rest4)
      | _ => .error "Expected colon in JSON"

/-- `JSON.parse` restricted to the subset the planner protocol uses: a flat
object with string keys and string values.  Anything outside the subset is a
parse error, which (as for real invalid JSON) sends `parseActionResponse`
into its line-based fallback. -/
def jsonParseFlatObj (s : List Char) : Except String (List (String × String)) :=
  match skipWs s with
  | '{' :: rest =>
    match skipWs rest with
    | '}' :: rest2 =>
        if (skipWs rest2).isEmpty then .ok []
        else .error "Unexpected token after JSON"
    | rest2 =>
      match parseJsonPairs (rest2.length + 1) rest2 [] with
      | .error e => .error e
      | .ok (pairs, rem) =>
        match skipWs rem with
        | '}' :: rem2 =>
            if (skipWs rem2).isEmpty then .ok pairs
            else .error "Unexpected token after JSON"
        | _ => .error "Expected closing brace in JSON"
  | _ => .error "Unexpected token in JSON"

/-- The structured action `{name, params}` extracted by the planner. -/
structure Action where
  name : String
  params : List (String × String)
deriving DecidableEq, Repr

/-- The planner's decision `{thought, action, shouldFinish}`; `action` is
`none` where the source stores `null`. -/
structure Decision where
  thought : String
  action : Option Action
  shouldFinish : Bool
deriving DecidableEq, Repr

/-- The `catch` fallback of `parseActionResponse` (`model.js` lines 327–336):
line-by-line `key: value` extraction over `paramsMatch[1].split("\n")`,
keeping a pair only when both trimmed parts are non-empty (JS
`if (key && value)`); `line.split(":")` destructured to `[key, value]` drops
any parts after the second. -/
def parseParamsFallback (raw : List Char) : List (String × String) :=
  (splitOnChar '\n' raw).foldl
    (fun acc line =>
      if line.contains ':' then
        match (splitOnChar ':' line).map trimChars with
        | [] => acc
        | [_] => acc
        | key :: value :: _ =>
            if key ≠ [] ∧ value ≠ [] then
              setKey acc (String.mk key) (String.mk value)
            else acc
      else acc)
    []

/-- The `Action Parameters:` handling of `parseActionResponse` (`model.js`
lines 316–338): strip code fences and try `JSON.parse`; on failure, fall
back to line parsing of the *untrimmed* captured text. -/
def parseActionParams (raw : List Char) : List (String × String) :=
  let paramsText := trimChars raw
  let jsonContent := trimChars (removeFences paramsText)
  match jsonParseFlatObj jsonContent with
  | .ok obj => obj
  | .error _ => parseParamsFallback raw

/-- The `Thought:` extraction (`model.js` lines 301–304):
`/Thought:(.*?)(?=Action:|Final Answer:|$)/s`, trimmed; `""` when absent. -/
def extractedThought (r : List Char) : String :=
  match findLabel "Thought:".data r with
  | some t =>
      String.mk (trimChars (takeUntilStops ["Action:".data, "Final Answer:".data] t))
  | none => ""

/-- The `Action:` extraction (`model.js` lines 307–308):
`/Action:(.*?)(?=Action Parameters:|$)/s`, trimmed; `""` when absent. -/
def extractedActionName (r : List Char) : String :=
  match findLabel "Action:".data r with
  | some t => String.mk (trimChars (takeUntilStops ["Action Parameters:".data] t))
  | none => ""

/-- The `Action Parameters:` extraction (`model.js` lines 311–338):
`/Action Parameters:(.*?)(?=Final Answer:|$)/s` fed to `parseActionParams`;
`{}` when absent. -/
def extractedParams (r : List Char) : List (String × String) :=
  match findLabel "Action Parameters:".data r with
  | some t => parseActionParams (takeUntilStops ["Final Answer:".data] t)
  | none => []

/-- The finish flag (`model.js` lines 341–344):
`/Final Answer:\s*(true|false)/i`; absent ⇒ `false`. -/
def extractedShouldFinish (r : List Char) : Bool :=
  (findFinalAnswerFlag r).getD false

/-- `Planner.parseActionResponse(response)` (`model.js` lines 299–368).

Faithful to the source, including its scoping slip: the branch
``if (!actionName && !shouldFinish)`` builds a default action whose params
are ``{ query: state.query }`` — but `state` is not in scope inside
`parseActionResponse`, so evaluating that branch throws
`ReferenceError: state is not defined`, modelled as `Except.error`. -/
def parseActionResponse (response : String) : Except String Decision :=
  let r := response.data
  let thought := extractedThought r
  let actionName := extractedActionName r
  let actionParams := extractedParams r
  let shouldFinish := extractedShouldFinish r
  if actionName = "" ∧ shouldFinish = false then
    .error "state is not defined"
  else
    .ok { thought := thought
          action :=
            if actionName ≠ "" then
              some { name := actionName, params := actionParams }
            else none
          shouldFinish := shouldFinish }

/-- Token usage reported by the completion client. -/
structure CompletionUsage where
  promptTokens : Nat
  completionTokens : Nat
  totalTokens : Nat
deriving DecidableEq, Repr

/-- The completion client's resolved value `{text, usage}`. -/
structure CompletionResponse where
  text : String
  usage : CompletionUsage
deriving DecidableEq, Repr

/-- A registered tool's presentation `{name, description, parameters}`
produced by `ToolBox.listTools()`. -/
structure ToolDescription where
  name : String
  description : String
  parameters : List String
deriving DecidableEq, Repr

/-- `Planner.buildPlanningPrompt(state, tools)` (`model.js` lines 246–292):
the template literal assembled from the query, iteration number,
conversation history and tool catalog.  The indentation whitespace of the JS
template literal is not reproduced character-for-character; no claim
concerns the prompt text, which is only ever consumed by the oracle. -/
def buildPlanningPrompt (st : ModelState) (tools : List ToolDescription) : String :=
  let toolDescriptions := String.intercalate "\n\n"
    (tools.map (fun t =>
      t.name ++ ": " ++ t.description ++ "\n  Parameters: " ++
        String.intercalate ", " t.parameters))
  let conversationHistory := String.intercalate "\n\n"
    (st.conversation.map (fun m => m.role ++ ": " ++ m.content))
  let previousObservations :=
    if st.iterations > 0 then "Previous observations:\n" ++ conversationHistory
    else "No previous observations."
  "You are an intelligent assistant using the ReAct (Reasoning + Acting) framework" ++
  "\nUser query: \"" ++ st.query ++ "\"" ++
  "\nCurrent iteration: " ++ toString (st.iterations + 1) ++
  "\n" ++ previousObservations ++
  "\nAvailable tools:\n" ++ toolDescriptions

/-- `Planner.planNextAction(state, tools)` (`model.js` lines 205–238).
`llm` is `this.llmClient.complete`; its rejection and any exception thrown
while parsing are both caught by the method's `try`/`catch`, which returns
the default search action over the session's query. -/
def planNextAction (llm : String → Except String CompletionResponse)
    (st : ModelState) (tools : List ToolDescription) : Decision :=
  let prompt := buildPlanningPrompt st tools
  match llm prompt with
  | .error e =>
      { thought := "Error planning next action: " ++ e
        action := some { name := "search", params := [("query", st.query)] }
        shouldFinish := false }
  | .ok response =>
      match parseActionResponse response.text with
      | .error e =>
          { thought := "Error planning next action: " ++ e
            action := some { name := "search", params := [("query", st.query)] }
            shouldFinish := false }
      | .ok planResult => planResult

/-- `Planner.generateFinalAnswer(state)`'s prompt (`model.js` lines 378–410);
like `buildPlanningPrompt`, assembled from the same pieces as the source
without reproducing template-literal indentation. -/
def buildFinalAnswerPrompt (st : ModelState) : String :=
  let conversationHistory := String.intercalate "\n\n"
    (st.conversation.map (fun m =>
      (if m.role = "system" then "Observation" else m.role) ++ ": " ++ m.content))
  let sourcesText :=
    if st.sources.length > 0 then
      "Sources found:\n" ++ String.intercalate "\n"
        (st.sources.enum.map (fun p =>
          "[" ++ toString (p.1 + 1) ++ "] " ++ p.2.title ++ " (" ++ p.2.source ++
            "): " ++ p.2.url))
    else "No sources were found."
  "User query: \"" ++ st.query ++ "\"\nInformation collected:\n" ++
    conversationHistory ++ "\n" ++ sourcesText

/-- `Planner.generateFinalAnswer(state)` (`model.js` lines 375–424): ask the
completion client for the final answer; its `try`/`catch` converts a failure
into the fixed apology string, so the method never throws. -/
def generateFinalAnswer (llm : String → Except String CompletionResponse)
    (st : ModelState) : String :=
  match llm (buildFinalAnswerPrompt st) with
  | .ok response => response.text
  | .error _ =>
      "I apologize, but I encountered an error while generating a response to your query. Please try asking again or rephrasing your question."

/-! ## Tool executor (`Controller` in `model.js`) and registry -/

/-- A registered tool's `execute(params, agentContext)` capability; a thrown
exception is `Except.error` carrying `error.message`. -/
def ToolFn := List (String × String) → ExecCtx → Except String ToolResult

/-- `Controller.executeAction(action, state)` (`model.js` lines 149–183).
`getTool` is `this.toolbox.getTool` (`tools/index.js`: object lookup,
`undefined` = `none`).  The body's `try`/`catch` makes the method total for
any (non-null) action: a missing tool and a throwing tool are both converted
into an observation/error result instead of propagating. -/
def executeAction (getTool : String → Option ToolFn) (action : Action)
    (st : ModelState) : ToolResult :=
  match getTool action.name with
  | none =>
      { observation := "Error: Tool '" ++ action.name ++ "' not found"
        sources := none
        error := some "TOOL_NOT_FOUND" }
  | some tool =>
      match tool action.params { query := st.query, context := st.context } with
      | .ok result => result
      | .error msg =>
          { observation := "Error executing " ++ action.name ++ ": " ++ msg
            sources := none
            error := some msg }

/-! ## Claude client (`server/services/llm/claude-client.js`) -/

/-- The configured defaults read in the client's constructor
(`config.claude.model`, `.maxTokens`, `.temperature`). -/
structure ClaudeConfig where
  model : String
  maxTokens : Nat
  temperature : ℚ
deriving DecidableEq, Repr

/-- The `options` argument of `ClaudeClient.complete`; absent keys are
`none`. -/
structure CompleteOptions where
  model : Option String := none
  maxTokens : Option Nat := none
  temperature : Option ℚ := none
  systemPrompt : Option String := none
deriving DecidableEq, Repr

/-- The request `complete` hands to `anthropic.messages.create`. -/
structure AnthropicRequest where
  model : String
  maxTokens : Nat
  temperature : ℚ
  system : String
  userMessage : String
deriving DecidableEq, Repr

/-- The effective-parameter computation of `ClaudeClient.complete`
(`claude-client.js` lines 22–45):
`options.model || this.defaultModel`, `options.maxTokens ||
this.defaultMaxTokens`, `options.temperature || this.defaultTemperature`,
`options.systemPrompt || "You are a helpful assistant..."` — all via JS `||`,
so any falsy supplied value (absent, `""`, `0`) selects the default. -/
def completeRequest (cfg : ClaudeConfig) (prompt : String)
    (options : CompleteOptions) : AnthropicRequest :=
  { model := jsOrStr options.model cfg.model
    maxTokens := jsOrNat options.maxTokens cfg.maxTokens
    temperature := jsOrRat options.temperature cfg.temperature
    system := jsOrStr options.systemPrompt
      "You are a helpful assistant that provides accurate and detailed information."
    userMessage := prompt }

/-! ## Orchestrator (`server/core/frameworks/react/index.js`)

The constructor-injected collaborators (`this.planner.planNextAction`,
`this.planner.generateFinalAnswer`, `this.controller.executeAction`) are
oracles on the state snapshot they are handed; an `Except.error` models a
rejected promise / thrown exception reaching the loop body.  The real
`Planner`/`Controller` methods defined above are instances of these shapes
(`planNextAction` and `executeAction` are total, i.e. always `.ok`). -/

structure LoopOracles where
  planNextAction : ModelState → Except String Decision
  generateFinalAnswer : ModelState → Except String String
  executeAction : Action → ModelState → Except String ToolResult

/-- `react/index.js` lines 93–96: `if (actionResult.sources)
this.model.updateState({ sources: actionResult.sources })` — an absent
`sources` key is falsy and skips the merge (any array, even `[]`, is
truthy). -/
def mergeActionSources (st : ModelState) (res : ToolResult) : ModelState :=
  match res.sources with
  | none => st
  | some srcs => updateState st { sources := some srcs }

/-- `ReActFramework.executeReActLoop()` (`react/index.js` lines 54–108),
instrumented with two counters (`nPlan`, `nFinal`) recording the number of
`planNextAction` and `generateFinalAnswer` invocations; the counters do not
influence control flow.

State snapshots: the JS local `state` re-read at line 62 shares its
`conversation` array with the live model state (every later state object is
built by spread from it), while `sources`/`iterations`/`finalAnswer` are
frozen at the snapshot.  Consequently the value passed to
`generateFinalAnswer` equals `st2` on the `shouldFinish` path and `st3` (the
state *before* the evidence merge) on the forced-termination path, and the
forced-termination test at line 99 reads the snapshot fields of `st1`.

The null-action case: with `shouldFinish` false and a `null` action,
line 81's `executeAction` destructures `action` outside its `try`, so a
`TypeError` propagates out of the loop (modelled as `Except.error`). -/
def reactLoop (maxIter : Nat) (O : LoopOracles) (st : ModelState)
    (nPlan nFinal : Nat) : Except String (ModelState × Nat × Nat) :=
  if _h : st.iterations < maxIter ∧ jsTruthyStr st.finalAnswer = false then
    -- lines 60–62: increment the iteration counter, re-read the state
    let st1 := updateState st { iterations := some (st.iterations + 1) }
    -- line 67: THINK — plan the next action
    match O.planNextAction st1 with
    | .error e => .error e
    | .ok planResult =>
      -- line 70
      let st2 := addReasoning st1 planResult.thought
      if planResult.shouldFinish then
        -- lines 73–78
        match O.generateFinalAnswer st2 with
        | .error e => .error e
        | .ok finalAnswer => .ok (setFinalAnswer st2 finalAnswer, nPlan + 1, nFinal + 1)
      else
        match planResult.action with
        | none => .error "Cannot destructure property 'name' of 'action' as it is null."
        | some action =>
          -- line 81: ACT
          match O.executeAction action st2 with
          | .error e => .error e
          | .ok actionResult =>
            -- lines 88–96: OBSERVE
            let st3 := addObservation st2 actionResult.observation action.name
            let st4 := mergeActionSources st3 actionResult
            -- lines 99–103: forced completion at the iteration ceiling
            if st1.iterations ≥ maxIter ∧ jsTruthyStr st1.finalAnswer = false then
              match O.generateFinalAnswer st3 with
              | .error e => .error e
              | .ok finalAnswer =>
                  reactLoop maxIter O (setFinalAnswer st4 finalAnswer)
                    (nPlan + 1) (nFinal + 1)
            else
              reactLoop maxIter O st4 (nPlan + 1) nFinal
  else
    .ok (st, nPlan, nFinal)
termination_by maxIter - st.iterations
decreasing_by
  all_goals
    cases hs : actionResult.sources <;>
      simp_all [setFinalAnswer, mergeActionSources, addObservation, addReasoning,
        updateState] <;>
      omega

/-- The loop entry (`this.executeReActLoop()`), starting the call counters
at zero. -/
def executeReActLoop (maxIter : Nat) (O : LoopOracles) (st0 : ModelState) :
    Except String (ModelState × Nat × Nat) :=
  reactLoop maxIter O st0 0 0

/-- The optional debug payload of `formatResponse`. -/
structure DebugInfo where
  iterations : Nat
  conversationHistory : List Message
deriving DecidableEq, Repr

/-- The response shape returned by `ReActFramework.process`. -/
structure AgentResponse where
  answer : String
  sources : List Source
  error : Option String := none
  debugInfo : Option DebugInfo := none
deriving DecidableEq, Repr

/-- `ReActFramework.formatResponse(state)` (`react/index.js` lines 115–138):
defensive re-dedup by URL, top-5 cap, the `||` fallback answer, and the
optional debug payload. -/
def formatResponse (debug : Bool) (st : ModelState) : AgentResponse :=
  let uniqueSources := dedupByUrl st.sources
  { answer := jsOrStr st.finalAnswer
      "I was unable to generate a complete answer. Please try rephrasing your question."
    sources := uniqueSources.take 5
    error := none
    debugInfo :=
      if debug then
        some { iterations := st.iterations, conversationHistory := st.conversation }
      else none }

/-- `ReActFramework.process(query, context)` (`react/index.js` lines 22–49)
together with the constructor defaults (`config.maxIterations || 5`,
`config.debug || false`, lines 12–13).  The `try`/`catch` around the loop
converts any error escaping the loop body into the degraded response with an
error-explaining answer and no sources. -/
def reactProcess (maxIterCfg : Option Nat) (debugCfg : Option Bool)
    (O : LoopOracles) (query : String) (context : Context) : AgentResponse :=
  let maxIterations := jsOrNat maxIterCfg 5
  let debug := jsOrBool debugCfg false
  let st0 := initializeState query context
  match executeReActLoop maxIterations O st0 with
  | .ok (st, _, _) => formatResponse debug st
  | .error message =>
      { answer := "I encountered an error while processing your query: " ++ message ++
          ". Please try again or rephrase your question."
        sources := []
        error := some message
        debugInfo := none }

/-! ## Concrete instances used by witnesses and counterexamples -/

/-- C7 example data: relevance scores `[0.5, 0.9, 0.9, 0.3]` in fan-out
order, with the two `0.9` entries distinguishable by title. -/
def c7r1 : SearchResult :=
  { title := "first", url := "https://1", snippet := "s1", source := "A", relevance := ratLit 1 2 }

def c7r2 : SearchResult :=
  { title := "second", url := "https://2", snippet := "s2", source := "A", relevance := ratLit 9 10 }

def c7r3 : SearchResult :=
  { title := "third", url := "https://3", snippet := "s3", source := "B", relevance := ratLit 9 10 }

def c7r4 : SearchResult :=
  { title := "fourth", url := "https://4", snippet := "s4", source := "B", relevance := ratLit 3 10 }

/-- C3 failing input: an already-stored evidence item … -/
def c3old : Source :=
  { title := "old title", url := "https://dup", source := "Zoom Community", snippet := "old snippet" }

/-- … and a later merge carrying a different item with the same URL. -/
def c3new : Source :=
  { title := "new title", url := "https://dup", source := "Zoom Support", snippet := "new snippet" }

/-- C3 failing input: session state holding `c3old` before the merge. -/
def c3state : ModelState :=
  { query := "q"
    conversation := [{ role := "user", content := "q" }]
    context := []
    sources := [c3old]
    iterations := 2
    finalAnswer := none }

/-- C2 data: source A's single result. -/
def c2rA : SearchResult :=
  { title := "A result", url := "https://dup", snippet := "sa", source := "SrcA", relevance := ratLit 9 10 }

/-- C2 data: source C's single result, duplicating A's URL. -/
def c2rC : SearchResult :=
  { title := "C result", url := "https://dup", snippet := "sc", source := "SrcC", relevance := ratLit 1 2 }

/-- C2 per-source outcomes: A and C succeed, B's fetch rejects. -/
def c2fetch : String → Except String (List SearchResult) := fun s =>
  if s = "A" then .ok [c2rA]
  else if s = "B" then .error "network error"
  else .ok [c2rC]

/-- C2 summary oracle (succeeds; irrelevant to the counted lengths). -/
def c2llm : List SearchResult → String → Except String String := fun _ _ => .ok "summary"

def c2params : SearchParams := { query := some "q", sources := some ["A", "B", "C"] }

def c2ctx : ExecCtx := { query := "q", context := [] }

/-- C8 data: a registry in which no tool is registered. -/
def c8getToolNone : String → Option ToolFn := fun _ => none

/-- C8 data: a tool whose `execute` throws. -/
def c8failTool : ToolFn := fun _ _ => .error "boom"

/-- C8 data: a registry resolving every name to the throwing tool. -/
def c8getToolFail : String → Option ToolFn := fun _ => some c8failTool

def c8action : Action := { name := "search", params := [("query", "q")] }

def c8state : ModelState := initializeState "q" []

/-- C10 data: the configured defaults of `config.claude`
(model `claude-3-opus-20240229`, 4000 tokens, temperature 0.3). -/
def c10cfg : ClaudeConfig :=
  { model := "claude-3-opus-20240229", maxTokens := 4000, temperature := 0.3 }

/-- C10 data: a caller explicitly requesting `maxTokens: 0` and
`temperature: 0`. -/
def c10opts : CompleteOptions :=
  { model := none, maxTokens := some 0, temperature := some 0, systemPrompt := none }

/-- C9 data: a planner whose completion call rejects and is (hypothetically)
not caught — an arbitrary loop-body failure reaching the orchestrator. -/
def c9failOracles : LoopOracles :=
  { planNextAction := fun _ => .error "LLM unavailable"
    generateFinalAnswer := fun _ => .ok "never reached"
    executeAction := fun _ _ => .ok { observation := "never reached" } }

/-- C1 data: a planner that never finishes — every decision is the search
action with `shouldFinish: false`. -/
def c1neverFinishOracles : LoopOracles :=
  { planNextAction := fun _ =>
      .ok { thought := "keep searching"
            action := some { name := "search", params := [("query", "q")] }
            shouldFinish := false }
    generateFinalAnswer := fun _ => .ok "forced answer"
    executeAction := fun _ _ => .ok { observation := "obs", sources := some [] } }

/-- C4 data: a completion reply with no `Action:` segment and
`Final Answer: false`. -/
def c4reply : String := "Thought: hi\nFinal Answer: false"

def c4usage : CompletionUsage :=
  { promptTokens := 10, completionTokens := 5, totalTokens := 15 }

/-! C5 scenario: two sessions A and B interleaved on the module-level
singleton.  `agent.controller.js` creates ONE `GeneralAgent` at module load
(`const generalAgent = new GeneralAgent()`), and `GeneralAgent`'s
constructor creates ONE `Model` (`this.model = new Model()`), which every
`process` call passes to the shared `ReActFramework`.  Hence two
interleaved `process` calls mutate the same `Model.state`.

The interleaving modelled (each segment is the synchronous JS code between
two `await` points, acting on the shared store):

1. A: `process("A?")` runs `initializeState` and the loop start through the
   iteration increment (`react/index.js` lines 26, 59–62), then suspends at
   `await planNextAction` (line 67).
2. B: `process("B?")` runs to completion while A is suspended.  B's
   `initializeState` replaces the shared state object wholesale
   (`model.js` lines 22–34), so B's run from the shared store equals a run
   from scratch; the shared store afterwards holds B's final state.
3. A resumes: `addReasoning` (line 70) pushes into the *shared* (now B's)
   state; A's decision says finish, so `generateFinalAnswer(state)` is
   called on A's stale snapshot and `setFinalAnswer` (line 76) mutates the
   shared state; the loop breaks (A's local snapshot is unchanged).
4. A: `process` re-reads the shared state (line 33) and formats its
   response from it (line 36). -/

/-- C5 data: the evidence B's retrieval returns. -/
def c5srcB : Source :=
  { title := "B evidence", url := "https://b", source := "Zoom Support", snippet := "sb" }

/-- C5 data: B's planner — search on iteration 1, finish on iteration 2
(the planner sees the post-increment snapshot). -/
def c5plannerB : ModelState → Except String Decision := fun s =>
  if s.iterations = 1 then
    .ok { thought := "need info"
          action := some { name := "search", params := [("query", "B?")] }
          shouldFinish := false }
  else .ok { thought := "done", action := none, shouldFinish := true }

def c5OB : LoopOracles :=
  { planNextAction := c5plannerB
    generateFinalAnswer := fun _ => .ok "answer B"
    executeAction := fun _ _ =>
      .ok { observation := "found B things", sources := some [c5srcB] } }

/-- C5: the shared store after B's complete run (step 2). -/
def c5stB : ModelState :=
  match executeReActLoop 5 c5OB (initializeState "B?" []) with
  | .ok (st, _, _) => st
  | .error _ => initializeState "B?" []

/-- C5 data: A's planner — immediately finish. -/
def c5OA : LoopOracles :=
  { planNextAction := fun _ =>
      .ok { thought := "enough", action := none, shouldFinish := true }
    generateFinalAnswer := fun _ => .ok "answer A"
    executeAction := fun _ _ => .ok { observation := "unused" } }

/-- C5 step 1: A's `initializeState` and iteration increment on the shared
store; this is also A's local loop snapshot (line 62), whose object B's
later `initializeState` does not mutate. -/
def c5snapA : ModelState :=
  updateState (initializeState "A?" []) { iterations := some 1 }

/-- C5 step 3: A resumes on the shared store (B's final state): reasoning
appended, then the answer from `generateFinalAnswer` applied to A's stale
snapshot (A's oracle returns "answer A" regardless), set on the shared
store. -/
def c5sharedFinal : ModelState :=
  setFinalAnswer (addReasoning c5stB "enough") "answer A"

/-- C5 step 4: the response A returns, formatted from the shared store. -/
def c5respAinterleaved : AgentResponse := formatResponse false c5sharedFinal

/-- C5 baseline: the response A returns when it runs with no interleaving —
`reactProcess` is exactly the serial semantics of `process`. -/
def c5respAserial : AgentResponse := reactProcess (some 5) none c5OA "A?" []

/-! ## Helper lemmas -/

@[simp] theorem updateState_iterations (st : ModelState) (u : StateUpdate) :
    (updateState st u).iterations = u.iterations.getD st.iterations := by
  unfold updateState
  cases u.sources <;> rfl

@[simp] theorem updateState_finalAnswer (st : ModelState) (u : StateUpdate) :
    (updateState st u).finalAnswer = st.finalAnswer := by
  unfold updateState
  cases u.sources <;> rfl

@[simp] theorem updateState_query (st : ModelState) (u : StateUpdate) :
    (updateState st u).query = st.query := by
  unfold updateState
  cases u.sources <;> rfl

@[simp] theorem addObservation_iterations (st : ModelState) (o n : String) :
    (addObservation st o n).iterations = st.iterations := rfl

@[simp] theorem addObservation_finalAnswer (st : ModelState) (o n : String) :
    (addObservation st o n).finalAnswer = st.finalAnswer := rfl

@[simp] theorem addReasoning_iterations (st : ModelState) (t : String) :
    (addReasoning st t).iterations = st.iterations := rfl

@[simp] theorem addReasoning_finalAnswer (st : ModelState) (t : String) :
    (addReasoning st t).finalAnswer = st.finalAnswer := rfl

@[simp] theorem setFinalAnswer_iterations (st : ModelState) (a : String) :
    (setFinalAnswer st a).iterations = st.iterations := rfl

@[simp] theorem setFinalAnswer_finalAnswer (st : ModelState) (a : String) :
    (setFinalAnswer st a).finalAnswer = some a := rfl

@[simp] theorem mergeActionSources_iterations (st : ModelState) (res : ToolResult) :
    (mergeActionSources st res).iterations = st.iterations := by
  unfold mergeActionSources
  cases res.sources <;> simp

@[simp] theorem mergeActionSources_finalAnswer (st : ModelState) (res : ToolResult) :
    (mergeActionSources st res).finalAnswer = st.finalAnswer := by
  unfold mergeActionSources
  cases res.sources <;> simp

theorem jsOrNat_pos (a : Option Nat) (b : Nat) (hb : 0 < b) : 0 < jsOrNat a b := by
  unfold jsOrNat
  cases a with
  | none => exact hb
  | some n =>
      by_cases h : n = 0
      · simp [h, hb]
      · simp [h]
        omega

theorem jsOrStr_ne_empty (a : Option String) (b : String) (hb : b ≠ "") :
    jsOrStr a b ≠ "" := by
  unfold jsOrStr
  cases a with
  | none => exact hb
  | some s =>
      by_cases h : s = ""
      · simp [h, hb]
      · simp [h]

theorem formatResponse_answer_ne_empty (debug : Bool) (st : ModelState) :
    (formatResponse debug st).answer ≠ "" := by
  unfold formatResponse
  exact jsOrStr_ne_empty _ _ (by decide)

theorem string_append_ne_empty_left (a b : String) (ha : a ≠ "") : a ++ b ≠ "" := by
  intro hc
  apply ha
  cases a with
  | mk la =>
      cases b with
      | mk lb =>
          have hd : la ++ lb = ([] : List Char) := congrArg String.data hc
          have hla : la = [] := (List.append_eq_nil.mp hd).1
          rw [hla]

theorem reactProcess_answer_ne_empty (maxIterCfg : Option Nat) (debugCfg : Option Bool)
    (O : LoopOracles) (q : String) (ctx : Context) :
    (reactProcess maxIterCfg debugCfg O q ctx).answer ≠ "" := by
  simp only [reactProcess]
  cases h : executeReActLoop (jsOrNat maxIterCfg 5) O (initializeState q ctx) with
  | error e =>
      simp only [ne_eq]
      exact string_append_ne_empty_left _ _
        (string_append_ne_empty_left _ _ (by decide))
  | ok v =>
      obtain ⟨st, nPlan, nFinal⟩ := v
      simpa using formatResponse_answer_ne_empty (jsOrBool debugCfg false) st

/-- Stability of `rankResults` at a single `orderedInsert`, inserted element
carrying the filtered score: the skipped prefix has strictly greater
relevance, so the inserted element heads the filtered sublist. -/
theorem filter_orderedInsert_of_relevance_eq (q : ℚ) (x : SearchResult)
    (hx : x.relevance = q) :
    ∀ l : List SearchResult,
      (l.orderedInsert rankLE x).filter (fun r => r.relevance == q) =
        x :: l.filter (fun r => r.relevance == q) := by
  intro l
  induction l with
  | nil => simp [List.orderedInsert, List.filter, hx]
  | cons y ys ih =>
      by_cases h : rankLE x y
      · simp [List.orderedInsert, if_pos h, List.filter, hx]
      · have hy : ¬ (y.relevance == q) = true := by
          simp only [rankLE, not_le] at h
          simp only [beq_iff_eq]
          intro hEq
          rw [hEq, ← hx] at h
          exact lt_irrefl _ h
        simp only [List.orderedInsert, if_neg h, List.filter]
        rw [Bool.not_eq_true] at hy
        rw [hy, ih]

/-- Stability of `rankResults` at a single `orderedInsert`, inserted element
not carrying the filtered score. -/
theorem filter_orderedInsert_of_relevance_ne (q : ℚ) (x : SearchResult)
    (hx : x.relevance ≠ q) :
    ∀ l : List SearchResult,
      (l.orderedInsert rankLE x).filter (fun r => r.relevance == q) =
        l.filter (fun r => r.relevance == q) := by
  intro l
  have hxq : ¬ (x.relevance == q) = true := by
    simp only [beq_iff_eq]; exact hx
  rw [Bool.not_eq_true] at hxq
  induction l with
  | nil => simp [List.orderedInsert, List.filter, hxq]
  | cons y ys ih =>
      by_cases h : rankLE x y
      · simp only [List.orderedInsert, if_pos h, List.filter, hxq]
      · simp only [List.orderedInsert, if_neg h, List.filter]
        cases hy : y.relevance == q <;> simp only [ih]

theorem filter_jsTruthyObj (l : List SearchResult) : l.filter jsTruthyObj = l := by
  induction l with
  | nil => rfl
  | cons x xs ih => simp [List.filter, jsTruthyObj, ih]

theorem rankResults_perm (l : List SearchResult) : (rankResults l).Perm l :=
  List.perm_insertionSort rankLE l

theorem rankResults_sorted (l : List SearchResult) :
    (rankResults l).Pairwise rankLE :=
  List.sorted_insertionSort rankLE l

/-- Stability of `rankResults`: the subsequence of results carrying any given
relevance score equals the corresponding subsequence of the input, in the
input's (fan-out) order. -/
theorem rankResults_stable (l : List SearchResult) (q : ℚ) :
    (rankResults l).filter (fun r => r.relevance == q) =
      l.filter (fun r => r.relevance == q) := by
  induction l with
  | nil => rfl
  | cons x xs ih =>
      have hstep : rankResults (x :: xs) = (rankResults xs).orderedInsert rankLE x := rfl
      rw [hstep]
      by_cases hx : x.relevance = q
      · rw [filter_orderedInsert_of_relevance_eq q x hx, ih]
        simp [List.filter, hx]
      · rw [filter_orderedInsert_of_relevance_ne q x hx, ih]
        have hxq : (x.relevance == q) = false := by simp [hx]
        simp [List.filter, hxq]

/-- The parser never produces a stalled decision: an `.ok` decision with
`shouldFinish` false always carries an action (the stalling combination is
exactly the branch that throws). -/
theorem parseActionResponse_no_stall (t : String) (d : Decision)
    (h : parseActionResponse t = Except.ok d) (hsf : d.shouldFinish = false) :
    d.action.isSome := by
  simp only [parseActionResponse] at h
  by_cases hc : extractedActionName t.data = "" ∧ extractedShouldFinish t.data = false
  · rw [if_pos hc] at h
    exact Except.noConfusion h
  · rw [if_neg hc] at h
    injection h with h
    subst h
    have hF : extractedShouldFinish t.data = false := hsf
    have hN : ¬ extractedActionName t.data = "" := fun he => hc ⟨he, hF⟩
    show (if extractedActionName t.data ≠ "" then some _ else none).isSome
    rw [if_pos hN]
    rfl

/-- The planner never yields a stalled decision: whenever `planNextAction`
returns `shouldFinish = false`, the decision carries an action — either the
parsed one, or the default search action produced by the method's `catch`
(which also fires on the parser's out-of-scope `state` reference). -/
theorem planNextAction_no_stall (llm : String → Except String CompletionResponse)
    (st : ModelState) (tools : List ToolDescription)
    (hsf : (planNextAction llm st tools).shouldFinish = false) :
    (planNextAction llm st tools).action.isSome := by
  unfold planNextAction at hsf ⊢
  cases hllm : llm (buildPlanningPrompt st tools) with
  | error e => simp [hllm]
  | ok resp =>
      cases hp : parseActionResponse resp.text with
      | error e => simp [hllm, hp]
      | ok d =>
          simp only [hllm, hp] at hsf ⊢
          exact parseActionResponse_no_stall resp.text d hp hsf

/-- The loop invariant: with components that return (rather than throw), and
a planner that supplies an action whenever it does not finish (which the real
`planNextAction` guarantees — `planNextAction_no_stall`), the loop returns
normally; `k`/`j` count the `planNextAction`/`generateFinalAnswer` calls
made, bounded by the remaining iteration budget and by one respectively; on
a start below the ceiling the final state carries an answer; and under a
never-finishing planner the loop stops exactly at the ceiling. -/
theorem reactLoop_spec (maxIter : Nat) (O : LoopOracles)
    (hplan : ∀ s, ∃ d, O.planNextAction s = Except.ok d)
    (hact : ∀ s d, O.planNextAction s = Except.ok d → d.shouldFinish = false → d.action.isSome)
    (hfin : ∀ s, ∃ a, O.generateFinalAnswer s = Except.ok a)
    (hexec : ∀ a s, ∃ r, O.executeAction a s = Except.ok r) :
    ∀ n st nPlan nFinal, maxIter - st.iterations = n → st.iterations ≤ maxIter →
      ∃ st' k j,
        reactLoop maxIter O st nPlan nFinal = Except.ok (st', nPlan + k, nFinal + j) ∧
        k ≤ maxIter - st.iterations ∧ j ≤ 1 ∧ st'.iterations ≤ maxIter ∧
        (¬ (st.iterations < maxIter ∧ jsTruthyStr st.finalAnswer = false) →
          st' = st ∧ k = 0 ∧ j = 0) ∧
        (st.iterations < maxIter → jsTruthyStr st.finalAnswer = false →
          st'.finalAnswer.isSome) ∧
        ((∀ s d, O.planNextAction s = Except.ok d → d.shouldFinish = false) →
          jsTruthyStr st.finalAnswer = false → st'.iterations = maxIter) := by
  intro n
  induction n using Nat.strong_induction_on with
  | _ n IH =>
    intro st nPlan nFinal hn hle
    by_cases hguard : st.iterations < maxIter ∧ jsTruthyStr st.finalAnswer = false
    · obtain ⟨hlt, hfa⟩ := hguard
      obtain ⟨d, hd⟩ := hplan (updateState st { iterations := some (st.iterations + 1) })
      rw [reactLoop, dif_pos ⟨hlt, hfa⟩]
      simp only [hd]
      cases hsf : d.shouldFinish with
      | true =>
        obtain ⟨a, ha⟩ :=
          hfin (addReasoning (updateState st { iterations := some (st.iterations + 1) }) d.thought)
        simp only [hsf, if_true, ha]
        refine ⟨_, 1, 1, rfl, by omega, le_refl 1, by simp; omega, ?_, ?_, ?_⟩
        · intro hg
          exact absurd ⟨hlt, hfa⟩ hg
        · intro _ _
          simp
        · intro hnf _
          have := hnf _ d hd
          rw [hsf] at this
          exact absurd this (by simp)
      | false =>
        have hsome := hact _ d hd hsf
        obtain ⟨act, hactEq⟩ := Option.isSome_iff_exists.mp hsome
        obtain ⟨r, hr⟩ :=
          hexec act (addReasoning (updateState st { iterations := some (st.iterations + 1) }) d.thought)
        simp only [hsf, hactEq, hr, Bool.false_eq_true, if_false]
        by_cases hforce :
            (updateState st { iterations := some (st.iterations + 1) }).iterations ≥ maxIter ∧
            jsTruthyStr (updateState st { iterations := some (st.iterations + 1) }).finalAnswer = false
        · -- forced completion at the ceiling: this was the last pass
          obtain ⟨a2, ha2⟩ := hfin
            (addObservation
              (addReasoning (updateState st { iterations := some (st.iterations + 1) }) d.thought)
              r.observation act.name)
          simp only [if_pos hforce, ha2]
          have hit : ((setFinalAnswer
              (mergeActionSources
                (addObservation
                  (addReasoning (updateState st { iterations := some (st.iterations + 1) }) d.thought)
                  r.observation act.name) r) a2)).iterations = st.iterations + 1 := by simp
          have hmaxeq : st.iterations + 1 = maxIter := by
            have h1 := hforce.1
            simp at h1
            omega
          obtain ⟨st', k', j', heq, hk', hj', hit', hcond', _, _⟩ :=
            IH 0 (by omega) _ (nPlan + 1) (nFinal + 1) (by rw [hit, hmaxeq]; omega)
              (by rw [hit]; omega)
          obtain ⟨hst'eq, hk0, hj0⟩ := hcond' (by rw [hit, hmaxeq]; simp)
          subst hst'eq hk0 hj0
          refine ⟨_, 1, 1, by rw [heq], by omega, le_refl 1, by rw [hit]; omega, ?_, ?_, ?_⟩
          · intro hg
            exact absurd ⟨hlt, hfa⟩ hg
          · intro _ _
            simp
          · intro _ _
            rw [hit, hmaxeq]
        · -- ordinary pass: recurse on the merged state
          simp only [if_neg hforce]
          have hfa4 : jsTruthyStr ((mergeActionSources
              (addObservation
                (addReasoning (updateState st { iterations := some (st.iterations + 1) }) d.thought)
                r.observation act.name) r)).finalAnswer = false := by simp [hfa]
          have hit4 : ((mergeActionSources
              (addObservation
                (addReasoning (updateState st { iterations := some (st.iterations + 1) }) d.thought)
                r.observation act.name) r)).iterations = st.iterations + 1 := by simp
          have hlt4 : st.iterations + 1 < maxIter := by
            rcases not_and_or.mp hforce with h | h
            · simp at h
              omega
            · rw [updateState_finalAnswer] at h
              exact absurd hfa h
          obtain ⟨st', k', j', heq, hk', hj', hit', _, hsome', hnf'⟩ :=
            IH (maxIter - (st.iterations + 1)) (by omega) _ (nPlan + 1) nFinal
              (by rw [hit4]) (by rw [hit4]; omega)
          rw [hit4] at hk'
          refine ⟨st', k' + 1, j', ?_, by omega, hj', hit', ?_, ?_, ?_⟩
          · rw [show nPlan + (k' + 1) = nPlan + 1 + k' by omega]
            exact heq
          · intro hg
            exact absurd ⟨hlt, hfa⟩ hg
          · intro _ _
            exact hsome' (by rw [hit4]; omega) hfa4
          · intro hnf _
            exact hnf' hnf hfa4
    · refine ⟨st, 0, 0, ?_, Nat.zero_le _, Nat.zero_le _, hle,
        fun _ => ⟨rfl, rfl, rfl⟩, ?_, ?_⟩
      · rw [Nat.add_zero, Nat.add_zero, reactLoop, dif_neg hguard]
      · intro h1 h2
        exact absurd ⟨h1, h2⟩ hguard
      · intro _ h2
        have h3 : ¬ st.iterations < maxIter := fun hlt => hguard ⟨hlt, h2⟩
        omega

/-! ## Claim theorems -/

/-- C1: for every configured ceiling and every sequence of planner decisions
(components returning rather than throwing, the planner supplying an action
whenever it does not finish — which the real planner guarantees, see
`planNextAction_no_stall`), the orchestrator's loop terminates and returns
normally with the final iteration count at most `maxIterations`
(`jsOrNat maxIterCfg 5`, default 5), at most `maxIterations + 1`
planner/completion calls, and the session's answer set; when the planner
never returns `shouldFinish = true` the loop stops after exactly
`maxIterations` iterations, and the returned response's answer is
non-empty. -/
theorem c1_loop_terminates (maxIterCfg : Option Nat) (debugCfg : Option Bool)
    (O : LoopOracles) (q : String) (ctx : Context)
    (hplan : ∀ s, ∃ d, O.planNextAction s = Except.ok d)
    (hact : ∀ s d, O.planNextAction s = Except.ok d → d.shouldFinish = false →
      d.action.isSome)
    (hfin : ∀ s, ∃ a, O.generateFinalAnswer s = Except.ok a)
    (hexec : ∀ a s, ∃ r, O.executeAction a s = Except.ok r) :
    ∃ st nPlan nFinal,
      executeReActLoop (jsOrNat maxIterCfg 5) O (initializeState q ctx) =
        Except.ok (st, nPlan, nFinal) ∧
      st.iterations ≤ jsOrNat maxIterCfg 5 ∧
      nPlan + nFinal ≤ jsOrNat maxIterCfg 5 + 1 ∧
      st.finalAnswer.isSome ∧
      ((∀ s d, O.planNextAction s = Except.ok d → d.shouldFinish = false) →
        st.iterations = jsOrNat maxIterCfg 5) ∧
      (reactProcess maxIterCfg debugCfg O q ctx).answer ≠ "" := by
  have hpos : 0 < jsOrNat maxIterCfg 5 := jsOrNat_pos maxIterCfg 5 (by omega)
  have hstart : (initializeState q ctx).iterations = 0 := rfl
  have hfa0 : jsTruthyStr (initializeState q ctx).finalAnswer = false := rfl
  obtain ⟨st', k, j, heq, hk, hj, hit, _, hsome, hnf⟩ :=
    reactLoop_spec (jsOrNat maxIterCfg 5) O hplan hact hfin hexec
      (jsOrNat maxIterCfg 5 - (initializeState q ctx).iterations)
      (initializeState q ctx) 0 0 rfl (by rw [hstart]; omega)
  refine ⟨st', 0 + k, 0 + j, heq, hit, ?_, ?_, ?_, ?_⟩
  · rw [hstart] at hk
    omega
  · exact hsome (by rw [hstart]; omega) hfa0
  · intro hnfh
    exact hnf hnfh hfa0
  · exact reactProcess_answer_ne_empty maxIterCfg debugCfg O q ctx

/-- Witness for C1: the never-finishing planner `c1neverFinishOracles` with
a configured ceiling of 1 — the loop returns with the answer set after
exactly one iteration and at most two completion calls. -/
theorem c1_witness :
    ∃ st nPlan nFinal,
      executeReActLoop (jsOrNat (some 1) 5) c1neverFinishOracles
          (initializeState "q" []) = Except.ok (st, nPlan, nFinal) ∧
      st.iterations ≤ jsOrNat (some 1) 5 ∧
      nPlan + nFinal ≤ jsOrNat (some 1) 5 + 1 ∧
      st.finalAnswer.isSome ∧
      ((∀ s d, c1neverFinishOracles.planNextAction s = Except.ok d →
          d.shouldFinish = false) →
        st.iterations = jsOrNat (some 1) 5) ∧
      (reactProcess (some 1) none c1neverFinishOracles "q" []).answer ≠ "" := by
  refine c1_loop_terminates (some 1) none c1neverFinishOracles "q" []
    (fun s => ⟨_, rfl⟩) ?_ (fun s => ⟨_, rfl⟩) (fun a s => ⟨_, rfl⟩)
  intro s d hd _
  injection hd with hd
  rw [← hd]
  rfl

/-- C2 counterexample: with sources `["A","B","C"]`, B failing, and A and C
each returning one result with the *same* URL, the tool's evidence list has
length 2 while `min(5, |A∪C deduped|) = 1` — the tool does not deduplicate. -/
theorem c2_counterexample :
    ((webSearchExecute c2fetch c2llm c2params c2ctx).sources.getD []).length = 2 ∧
    (dedupByUrl ([c2rA, c2rC].map toEvidence)).length = 1 ∧
    ¬ ((webSearchExecute c2fetch c2llm c2params c2ctx).sources.getD []).length =
        min 5 (dedupByUrl ([c2rA, c2rC].map toEvidence)).length := by
  refine ⟨by decide, by decide, ?_⟩
  decide

/-- C2 (amended): with sources `{A, B, C}` where B's fetch fails and A and C
succeed, the call still succeeds (`error = none`), the evidence list is
derived only from A's and C's results, and its length is
`min(5, |A's results| + |C's results|)` — the concatenated (not
deduplicated) count. -/
theorem c2_fanout_partial (fetch : String → Except String (List SearchResult))
    (llmSummary : List SearchResult → String → Except String String)
    (params : SearchParams) (ctx : ExecCtx)
    (ra rc : List SearchResult) (e : String)
    (hs : params.sources = some ["A", "B", "C"])
    (hA : fetch "A" = Except.ok ra) (hB : fetch "B" = Except.error e)
    (hC : fetch "C" = Except.ok rc) :
    (webSearchExecute fetch llmSummary params ctx).error = none ∧
    ∃ evid, (webSearchExecute fetch llmSummary params ctx).sources = some evid ∧
      evid.length = min 5 (ra.length + rc.length) ∧
      ∀ x ∈ evid, ∃ r, (r ∈ ra ∨ r ∈ rc) ∧ x = toEvidence r := by
  have hsrc : (webSearchExecute fetch llmSummary params ctx).sources =
      some (((rankResults (ra ++ rc)).take 5).map toEvidence) := by
    simp only [webSearchExecute, hs, Option.getD_some, List.map_cons, List.map_nil,
      hA, hB, hC, filter_jsTruthyObj, List.flatten_cons, List.flatten_nil,
      List.append_nil, List.nil_append]
  have herr : (webSearchExecute fetch llmSummary params ctx).error = none := by
    simp only [webSearchExecute]
  refine ⟨herr, _, hsrc, ?_, ?_⟩
  · rw [List.length_map, List.length_take, (rankResults_perm (ra ++ rc)).length_eq,
      List.length_append]
  · intro x hx
    obtain ⟨r, hr, hxr⟩ := List.mem_map.mp hx
    have hr2 : r ∈ rankResults (ra ++ rc) := List.mem_of_mem_take hr
    have hr3 : r ∈ ra ++ rc := (rankResults_perm _).mem_iff.mp hr2
    rcases List.mem_append.mp hr3 with h | h
    · exact ⟨r, Or.inl h, hxr.symm⟩
    · exact ⟨r, Or.inr h, hxr.symm⟩

/-- Witness for C2: the concrete fan-out `c2fetch` (A and C succeed with one
result each, B fails): the call succeeds and returns evidence of length
`min(5, 1 + 1) = 2` drawn from A's and C's results. -/
theorem c2_witness :
    c2params.sources = some ["A", "B", "C"] ∧
    c2fetch "A" = Except.ok [c2rA] ∧ c2fetch "B" = Except.error "network error" ∧
    c2fetch "C" = Except.ok [c2rC] ∧
    (webSearchExecute c2fetch c2llm c2params c2ctx).error = none ∧
    ∃ evid, (webSearchExecute c2fetch c2llm c2params c2ctx).sources = some evid ∧
      evid.length = min 5 ([c2rA].length + [c2rC].length) ∧
      ∀ x ∈ evid, ∃ r, (r ∈ [c2rA] ∨ r ∈ [c2rC]) ∧ x = toEvidence r := by
  obtain ⟨h1, h2⟩ :=
    c2_fanout_partial c2fetch c2llm c2params c2ctx [c2rA] [c2rC] "network error"
      rfl rfl rfl rfl
  exact ⟨rfl, rfl, rfl, rfl, h1, h2⟩

/-- C3 (code bug): evaluating `Model.updateState` at a state already holding
evidence `c3old` and a merge supplying `c3new` with the same URL: because the
spread `{...this.state, ...updates}` overwrites `state.sources` *before* the
merge concatenates, the previously stored first-seen item is discarded and
the update's item (with its content) is what survives; the same method also
accepts an `iterations` value smaller than the current one. -/
theorem c3_updateState_discards_old_sources :
    (updateState c3state { sources := some [c3new] }).sources = [c3new] ∧
    c3old ∉ (updateState c3state { sources := some [c3new] }).sources ∧
    (updateState c3state { iterations := some 0 }).iterations < c3state.iterations := by
  refine ⟨by decide, by decide, by decide⟩

/-- C4: for a completion reply with no `Action:` occurrence and a finish
flag that is `false` or absent, `parseActionResponse` actually throws (its
fallback branch references the out-of-scope `state`), and `planNextAction`'s
`catch` converts that into the default decision: `shouldFinish = false` with
the `search` action over the session's original query — never a stalled
decision. -/
theorem c4_planner_fallback (st : ModelState) (tools : List ToolDescription)
    (t : String) (u : CompletionUsage)
    (hNoAction : findLabel "Action:".data t.data = none)
    (hNoFinish : extractedShouldFinish t.data = false) :
    parseActionResponse t = Except.error "state is not defined" ∧
    planNextAction (fun _ => Except.ok { text := t, usage := u }) st tools =
      { thought := "Error planning next action: " ++ "state is not defined"
        action := some { name := "search", params := [("query", st.query)] }
        shouldFinish := false } := by
  have hname : extractedActionName t.data = "" := by
    unfold extractedActionName
    rw [hNoAction]
  have hparse : parseActionResponse t = Except.error "state is not defined" := by
    simp only [parseActionResponse]
    rw [if_pos ⟨hname, hNoFinish⟩]
  refine ⟨hparse, ?_⟩
  simp only [planNextAction, hparse]

/-- Witness for C4: the reply `"Thought: hi\nFinal Answer: false"` has no
`Action:` segment and an explicit `Final Answer: false`; the planner returns
the default search action over the session's query. -/
theorem c4_witness :
    findLabel "Action:".data c4reply.data = none ∧
    extractedShouldFinish c4reply.data = false ∧
    planNextAction (fun _ => Except.ok { text := c4reply, usage := c4usage })
        (initializeState "my audio does not work" []) [] =
      { thought := "Error planning next action: " ++ "state is not defined"
        action := some { name := "search"
                         params := [("query", "my audio does not work")] }
        shouldFinish := false } := by
  refine ⟨by decide, by decide, ?_⟩
  exact (c4_planner_fallback (initializeState "my audio does not work" []) []
    c4reply c4usage (by decide) (by decide)).2

/-- C5 counterexample: sessions are *not* isolated.  Interleaving session B
inside session A's loop (both running on the module-level singleton's single
`Model`) changes A's returned response: interleaved, A's response carries
B's evidence, while A run serially returns no sources. -/
theorem c5_counterexample :
    c5respAinterleaved.sources = [c5srcB] ∧
    c5respAserial.sources = [] ∧
    c5respAinterleaved ≠ c5respAserial := by
  have h1 : c5respAinterleaved.sources = [c5srcB] := by
    simp [c5respAinterleaved, c5sharedFinal, c5stB, executeReActLoop, reactLoop, c5OB,
      c5plannerB, initializeState, jsTruthyStr, updateState, addReasoning, addObservation,
      setFinalAnswer, mergeActionSources, formatResponse, jsOrStr]
    decide
  have h2 : c5respAserial.sources = [] := by
    simp [c5respAserial, reactProcess, executeReActLoop, reactLoop, c5OA,
      initializeState, jsTruthyStr, updateState, addReasoning, setFinalAnswer,
      mergeActionSources, formatResponse, dedupByUrl, jsOrStr, jsOrNat, jsOrBool]
  refine ⟨h1, h2, ?_⟩
  intro h
  rw [h, h2] at h1
  exact List.noConfusion h1

/-- C5 (amended): concurrent sessions share the single module-level agent's
one State Store; in the modelled interleaving A's formatted response is the
format of the *shared* store left by B plus A's writes, so A returns B's
evidence (`c5srcB`) under A's own answer. -/
theorem c5_shared_store :
    c5respAinterleaved.sources = (formatResponse false c5stB).sources ∧
    c5respAinterleaved.answer = "answer A" ∧
    c5stB.sources = [c5srcB] := by
  have hB : c5stB.sources = [c5srcB] := by
    simp [c5stB, executeReActLoop, reactLoop, c5OB, c5plannerB, initializeState,
      jsTruthyStr, updateState, addReasoning, addObservation, setFinalAnswer,
      mergeActionSources]
    decide
  refine ⟨?_, ?_, hB⟩
  · simp [c5respAinterleaved, c5sharedFinal, formatResponse, setFinalAnswer,
      addReasoning]
  · simp [c5respAinterleaved, c5sharedFinal, formatResponse, setFinalAnswer,
      addReasoning, jsOrStr]

/-- C6: the reference reply parses to reasoning `"X"`, the `search` action
with parameters `{query: "audio issue"}`, and `shouldFinish = false`. -/
theorem c6_parse_example :
    parseActionResponse
        "Thought: X\nAction: search\nAction Parameters: \x7b\"query\":\"audio issue\"\x7d\nFinal Answer: false" =
      Except.ok
        { thought := "X"
          action := some { name := "search", params := [("query", "audio issue")] }
          shouldFinish := false } := rfl

/-- C7: `rankResults` is a stable descending sort: the output is a
permutation of the input, pairwise sorted by descending relevance, and the
subsequence at any fixed score keeps the input (fan-out) order; on scores
`[0.5, 0.9, 0.9, 0.3]` the two `0.9` entries keep their relative order. -/
theorem c7_rank_stable :
    (∀ l : List SearchResult,
        (rankResults l).Perm l ∧ (rankResults l).Pairwise rankLE ∧
        ∀ q : ℚ, (rankResults l).filter (fun r => r.relevance == q) =
          l.filter (fun r => r.relevance == q)) ∧
    rankResults [c7r1, c7r2, c7r3, c7r4] = [c7r2, c7r3, c7r1, c7r4] := by
  constructor
  · intro l
    exact ⟨rankResults_perm l, rankResults_sorted l, fun q => rankResults_stable l q⟩
  · decide

/-- C8: `Controller.executeAction` converts failures to values instead of
throwing: an unregistered name yields the tool-not-found result with error
`"TOOL_NOT_FOUND"`, and a tool that throws yields a result carrying the
exception message as observation suffix and error.  (Totality — "never
throws" — is the return type of `executeAction` itself, which is a plain
`ToolResult` by the source's `try`/`catch`.) -/
theorem c8_executeAction_total (getTool : String → Option ToolFn)
    (action : Action) (st : ModelState) :
    (getTool action.name = none →
      executeAction getTool action st =
        { observation := "Error: Tool '" ++ action.name ++ "' not found"
          sources := none
          error := some "TOOL_NOT_FOUND" }) ∧
    (∀ tool msg, getTool action.name = some tool →
      tool action.params { query := st.query, context := st.context } =
        Except.error msg →
      executeAction getTool action st =
        { observation := "Error executing " ++ action.name ++ ": " ++ msg
          sources := none
          error := some msg }) := by
  constructor
  · intro h
    simp only [executeAction, h]
  · intro tool msg h1 h2
    simp only [executeAction, h1, h2]

/-- Witness for C8: with an empty registry the `search` action yields the
tool-not-found result; with a registry whose tool throws `"boom"`, the
result carries `"boom"` as both observation suffix and error. -/
theorem c8_witness :
    executeAction c8getToolNone c8action c8state =
      { observation := "Error: Tool 'search' not found"
        sources := none
        error := some "TOOL_NOT_FOUND" } ∧
    executeAction c8getToolFail c8action c8state =
      { observation := "Error executing search: boom"
        sources := none
        error := some "boom" } := by
  constructor
  · exact (c8_executeAction_total c8getToolNone c8action c8state).1 rfl
  · exact (c8_executeAction_total c8getToolFail c8action c8state).2 c8failTool "boom" rfl rfl

/-- C9: the orchestrator's `process` never propagates an exception: whenever
the loop body errors, `process` returns normally with the error-explaining
answer and an empty sources list. -/
theorem c9_process_catches (maxIterCfg : Option Nat) (debugCfg : Option Bool)
    (O : LoopOracles) (q : String) (ctx : Context) (msg : String)
    (h : executeReActLoop (jsOrNat maxIterCfg 5) O (initializeState q ctx) =
      Except.error msg) :
    reactProcess maxIterCfg debugCfg O q ctx =
      { answer := "I encountered an error while processing your query: " ++ msg ++
          ". Please try again or rephrase your question."
        sources := []
        error := some msg
        debugInfo := none } := by
  simp only [reactProcess, h]

/-- Witness for C9: a planner whose completion call rejects with
`"LLM unavailable"` — the loop errors, and `process` returns the degraded
response with empty sources. -/
theorem c9_witness :
    executeReActLoop (jsOrNat none 5) c9failOracles (initializeState "q" []) =
      Except.error "LLM unavailable" ∧
    reactProcess none none c9failOracles "q" [] =
      { answer := "I encountered an error while processing your query: " ++
          "LLM unavailable" ++ ". Please try again or rephrase your question."
        sources := []
        error := some "LLM unavailable"
        debugInfo := none } := by
  have h : executeReActLoop (jsOrNat none 5) c9failOracles (initializeState "q" []) =
      Except.error "LLM unavailable" := by
    simp [executeReActLoop, reactLoop, c9failOracles, initializeState, jsTruthyStr,
      updateState, jsOrNat]
  exact ⟨h, c9_process_catches none none c9failOracles "q" [] "LLM unavailable" h⟩

/-- C10: in `ClaudeClient.complete`, a falsy `options` value — absent, or
`0` for `maxTokens`/`temperature`, or `""` for `model` — is silently
replaced by the configured default, so the effective request parameter
equals the default whenever the supplied value is falsy (in particular
temperature 0 and a zero token budget cannot be requested). -/
theorem c10_complete_falsy_defaults (cfg : ClaudeConfig) (prompt : String)
    (options : CompleteOptions) :
    ((options.maxTokens = none ∨ options.maxTokens = some 0) →
      (completeRequest cfg prompt options).maxTokens = cfg.maxTokens) ∧
    ((options.temperature = none ∨ options.temperature = some 0) →
      (completeRequest cfg prompt options).temperature = cfg.temperature) ∧
    ((options.model = none ∨ options.model = some "") →
      (completeRequest cfg prompt options).model = cfg.model) := by
  refine ⟨?_, ?_, ?_⟩ <;> rintro (h | h) <;>
    simp [completeRequest, jsOrNat, jsOrRat, jsOrStr, h]

/-- Witness for C10: with the configured defaults and a caller requesting
`maxTokens: 0` and `temperature: 0`, the effective request carries 4000
tokens and temperature 0.3. -/
theorem c10_witness :
    (c10opts.maxTokens = none ∨ c10opts.maxTokens = some 0) ∧
    (completeRequest c10cfg "p" c10opts).maxTokens = c10cfg.maxTokens ∧
    (c10opts.temperature = none ∨ c10opts.temperature = some 0) ∧
    (completeRequest c10cfg "p" c10opts).temperature = c10cfg.temperature := by
  refine ⟨Or.inr rfl, ?_, Or.inr rfl, ?_⟩
  · exact (c10_complete_falsy_defaults c10cfg "p" c10opts).1 (Or.inr rfl)
  · exact (c10_complete_falsy_defaults c10cfg "p" c10opts).2.1 (Or.inr rfl)

end AiSearch
